import Mathlib

/-!
Shallow embedding of the gollama client library (whyrusleeping/gollama)
and verification of its specified behavior.

The embedding models:
- JSON values as an inductive type `Json`;
- `Message` and its custom `MarshalJSON` (client.go / types.go);
- standard `encoding/json` decoding of the response types
  (`Message`, `ResponseMessage`, `GenerateResponse`,
  `ResponseMessageGenerate`, `Usage`, `BatchResult`);
- `BatchError.GetErrorMessage`;
- the query-string construction of `ListBatches`;
- the request/response plumbing of `Generate`, `Chat`, `ChatCompletion`
  and `GetBatchResults`, with the HTTP transport abstracted as a function
  from dispatched requests to outcomes, and the list of dispatched
  requests returned alongside the result.
-/

namespace Gollama

/-- A JSON value. Numbers are modelled as integers: every number used by
the claims (token counts, limits, indexes) is integral. -/
inductive Json where
  | null
  | bool (b : Bool)
  | num (n : Int)
  | str (s : String)
  | arr (elems : List Json)
  | obj (fields : List (String × Json))

/-- Key lookup in a JSON object's field list (first match wins; the Go
encoder never emits duplicate keys). -/
def lookupField : List (String × Json) → String → Option Json
  | [], _ => none
  | (k, v) :: rest, key => if k = key then some v else lookupField rest key

/-- Field access on a JSON value: `none` unless the value is an object
holding the key. -/
def Json.getField : Json → String → Option Json
  | .obj fs, k => lookupField fs k
  | _, _ => none

/-- ToolCallFunction contains the name and arguments of a called tool
(tools.go). -/
structure ToolCallFunction where
  name : String
  arguments : String
deriving DecidableEq

/-- ToolCall represents a tool/function call made by the model (tools.go).
Field order matches the Go struct: Function, Type, ID. -/
structure ToolCall where
  function : ToolCallFunction
  type : String
  id : String
deriving DecidableEq

/-- Message represents a chat message (types.go lines 34-42).
Field order matches the Go struct; fields after `content` carry
`omitempty` tags. -/
structure Message where
  role : String
  content : String
  thinking : String := ""
  reasoningContent : String := ""
  images : List String := []
  toolCalls : List ToolCall := []
  toolCallID : String := ""
deriving DecidableEq

/-- Go `json.Marshal` of a `ToolCallFunction`: both fields always emitted,
in struct order. -/
def ToolCallFunction.marshalJSON (f : ToolCallFunction) : Json :=
  .obj [("name", .str f.name), ("arguments", .str f.arguments)]

/-- Go `json.Marshal` of a `ToolCall`: all three fields always emitted
(no omitempty), in struct order. -/
def ToolCall.marshalJSON (tc : ToolCall) : Json :=
  .obj [("function", tc.function.marshalJSON),
        ("type", .str tc.type),
        ("id", .str tc.id)]

/-- The flat branch of `Message.MarshalJSON` (types.go lines 50-53):
standard struct marshaling of the `MessageAlias`. `role` and `content`
are always emitted; the `omitempty` fields are emitted only when
non-empty, in struct-tag order. -/
def Message.marshalFlat (m : Message) : Json :=
  .obj ([("role", .str m.role), ("content", .str m.content)]
    ++ (if m.thinking = "" then [] else [("thinking", .str m.thinking)])
    ++ (if m.reasoningContent = "" then []
        else [("reasoning_content", .str m.reasoningContent)])
    ++ (if m.images.isEmpty then []
        else [("images", .arr (m.images.map Json.str))])
    ++ (if m.toolCalls.isEmpty then []
        else [("tool_calls", .arr (m.toolCalls.map ToolCall.marshalJSON))])
    ++ (if m.toolCallID = "" then []
        else [("tool_call_id", .str m.toolCallID)]))

/-- One image part in Anthropic format, as built in the loop of
`Message.MarshalJSON` (types.go lines 66-75). -/
def imagePart (img : String) : Json :=
  .obj [("type", .str "image"),
        ("source", .obj [("type", .str "base64"),
                         ("media_type", .str "image/jpeg"),
                         ("data", .str img)])]

/-- Model of `Message.MarshalJSON` (types.go lines 46-98, identical in client.go).
With no images the standard flat marshaling is used; otherwise the content
becomes an array of a text part followed by one image part per image, and
the non-empty optional fields are attached as sibling keys. The Go code
builds the structured branch as a Go string-keyed map, whose encoder
sorts keys alphabetically; key order is irrelevant here, so the fields are
listed in insertion order. -/
def Message.MarshalJSON (m : Message) : Json :=
  if m.images.isEmpty then
    m.marshalFlat
  else
    let content : Json :=
      .arr (.obj [("type", .str "text"), ("text", .str m.content)]
            :: m.images.map imagePart)
    .obj ([("role", .str m.role), ("content", content)]
      ++ (if m.thinking = "" then [] else [("thinking", .str m.thinking)])
      ++ (if m.reasoningContent = "" then []
          else [("reasoning_content", .str m.reasoningContent)])
      ++ (if m.toolCalls.isEmpty then []
          else [("tool_calls", .arr (m.toolCalls.map ToolCall.marshalJSON))])
      ++ (if m.toolCallID = "" then []
          else [("tool_call_id", .str m.toolCallID)]))

/-! Standard `encoding/json` decoding, as the library applies it to the
repository's struct types: a JSON `null` leaves the target at its zero
value, a missing key leaves the zero value, unknown keys are ignored,
and a type mismatch is an error that fails the whole `Decode` call. -/

/-- Go unmarshal into a `string` field: accepts a JSON string; `null`
leaves the zero value; anything else is a type error. -/
def Json.asString : Json → Except String String
  | .null => .ok ""
  | .str s => .ok s
  | _ => .error "json: cannot unmarshal value into Go value of type string"

/-- Go unmarshal into an `int` field. -/
def Json.asInt : Json → Except String Int
  | .null => .ok 0
  | .num n => .ok n
  | _ => .error "json: cannot unmarshal value into Go value of type int"

/-- Go unmarshal into a `bool` field. -/
def Json.asBool : Json → Except String Bool
  | .null => .ok false
  | .bool b => .ok b
  | _ => .error "json: cannot unmarshal value into Go value of type bool"

/-- Elementwise decoding of a JSON array body, as Go does for slice
fields: the first element error aborts the decode. -/
def decodeElems (dec : Json → Except String α) : List Json → Except String (List α)
  | [] => .ok []
  | j :: rest =>
    match dec j with
    | .error e => .error e
    | .ok x =>
      match decodeElems dec rest with
      | .error e => .error e
      | .ok xs => .ok (x :: xs)

/-- Go unmarshal into a slice field: `null` leaves the nil slice; an array
decodes elementwise. -/
def Json.asListOf (dec : Json → Except String α) : Json → Except String (List α)
  | .null => .ok []
  | .arr xs => decodeElems dec xs
  | _ => .error "json: cannot unmarshal value into Go slice value"

/-- Decoding of one named struct field: a missing key leaves the given
zero value. -/
def decodeField (j : Json) (key : String) (dec : Json → Except String α)
    (zero : α) : Except String α :=
  match j.getField key with
  | none => .ok zero
  | some v => dec v

/-- Go unmarshal of a `ToolCallFunction` from a JSON value. -/
def ToolCallFunction.decodeJSON (j : Json) : Except String ToolCallFunction :=
  match j with
  | .null => .ok ⟨"", ""⟩
  | .obj _ => do
    let name ← decodeField j "name" Json.asString ""
    let arguments ← decodeField j "arguments" Json.asString ""
    .ok ⟨name, arguments⟩
  | _ => .error "json: cannot unmarshal value into Go value of type gollama.ToolCallFunction"

/-- Go unmarshal of a `ToolCall` from a JSON value. -/
def ToolCall.decodeJSON (j : Json) : Except String ToolCall :=
  match j with
  | .null => .ok ⟨⟨"", ""⟩, "", ""⟩
  | .obj _ => do
    let function ← decodeField j "function" ToolCallFunction.decodeJSON ⟨"", ""⟩
    let type ← decodeField j "type" Json.asString ""
    let id ← decodeField j "id" Json.asString ""
    .ok ⟨function, type, id⟩
  | _ => .error "json: cannot unmarshal value into Go value of type gollama.ToolCall"

/-- Go unmarshal of a `Message` from a JSON value. The `Message` type has
no custom `UnmarshalJSON` anywhere in the repository, so decoding is the
standard reflection-driven one: `content` is a plain `string` field and
only accepts a JSON string (or `null`). -/
def Message.decodeJSON (j : Json) : Except String Message :=
  match j with
  | .null => .ok { role := "", content := "" }
  | .obj _ => do
    let role ← decodeField j "role" Json.asString ""
    let content ← decodeField j "content" Json.asString ""
    let thinking ← decodeField j "thinking" Json.asString ""
    let reasoningContent ← decodeField j "reasoning_content" Json.asString ""
    let images ← decodeField j "images" (Json.asListOf Json.asString) []
    let toolCalls ← decodeField j "tool_calls" (Json.asListOf ToolCall.decodeJSON) []
    let toolCallID ← decodeField j "tool_call_id" Json.asString ""
    .ok { role, content, thinking, reasoningContent, images, toolCalls, toolCallID }
  | _ => .error "json: cannot unmarshal value into Go value of type gollama.Message"

/-- Go unmarshal into a pointer field: `null` leaves the nil pointer;
otherwise a value is allocated and decoded. -/
def Json.asOptionOf (dec : Json → Except String α) : Json → Except String (Option α)
  | .null => .ok none
  | j => (dec j).map some

/-- NestedBatchError represents the nested error structure in Anthropic
batch errors (utils.go). The `Details` map is kept as raw JSON fields. -/
structure NestedBatchError where
  type : String
  message : String
  details : List (String × Json) := []

/-- BatchError represents an error in a batch result (utils.go). The
`Error` field is a pointer in Go, hence an `Option` here. -/
structure BatchError where
  type : String
  message : String
  error : Option NestedBatchError := none

/-- Model of `BatchError.GetErrorMessage` (utils.go / client.go lines 526-537):
returns the most descriptive error message available. The Go nil-pointer
guards become `isSome` checks. -/
def BatchError.GetErrorMessage (be : BatchError) : String :=
  let nested := be.error.getD ⟨"", "", []⟩
  if be.error.isSome && nested.message != "" then
    nested.message
  else if be.message != "" then
    be.message
  else if be.error.isSome && nested.type != "" then
    nested.type
  else
    be.type

/-- The spec's `resolve_message` priority chain, written from the spec's
words alone: nested-error message, if present and non-empty; else
top-level message, if non-empty; else nested-error type; else top-level
type. Compared against `BatchError.GetErrorMessage`. -/
def resolveMessageSpec (be : BatchError) : String :=
  match be.error with
  | some nested =>
    if nested.message ≠ "" then nested.message
    else if be.message ≠ "" then be.message
    else if nested.type ≠ "" then nested.type
    else be.type
  | none =>
    if be.message ≠ "" then be.message else be.type

/-- Go unmarshal of a `NestedBatchError`. -/
def NestedBatchError.decodeJSON (j : Json) : Except String NestedBatchError :=
  match j with
  | .null => .ok ⟨"", "", []⟩
  | .obj _ => do
    let type ← decodeField j "type" Json.asString ""
    let message ← decodeField j "message" Json.asString ""
    let details ← decodeField j "details"
      (fun v => match v with
        | .null => .ok []
        | .obj fs => .ok fs
        | _ => .error "json: cannot unmarshal value into Go map value") []
    .ok ⟨type, message, details⟩
  | _ => .error "json: cannot unmarshal value into Go value of type gollama.NestedBatchError"

/-- Go unmarshal of a `BatchError`. -/
def BatchError.decodeJSON (j : Json) : Except String BatchError :=
  match j with
  | .null => .ok ⟨"", "", none⟩
  | .obj _ => do
    let type ← decodeField j "type" Json.asString ""
    let message ← decodeField j "message" Json.asString ""
    let error ← decodeField j "error" (Json.asOptionOf NestedBatchError.decodeJSON) none
    .ok ⟨type, message, error⟩
  | _ => .error "json: cannot unmarshal value into Go value of type gollama.BatchError"

/-- BatchContentBlock represents a content block in the Anthropic
response (utils.go). -/
structure BatchContentBlock where
  type : String
  text : String
deriving DecidableEq

/-- Go unmarshal of a `BatchContentBlock`. -/
def BatchContentBlock.decodeJSON (j : Json) : Except String BatchContentBlock :=
  match j with
  | .null => .ok ⟨"", ""⟩
  | .obj _ => do
    let type ← decodeField j "type" Json.asString ""
    let text ← decodeField j "text" Json.asString ""
    .ok ⟨type, text⟩
  | _ => .error "json: cannot unmarshal value into Go value of type gollama.BatchContentBlock"

/-- BatchUsage represents token usage in batch results (utils.go). -/
structure BatchUsage where
  inputTokens : Int
  outputTokens : Int
deriving DecidableEq

/-- Go unmarshal of a `BatchUsage`. -/
def BatchUsage.decodeJSON (j : Json) : Except String BatchUsage :=
  match j with
  | .null => .ok ⟨0, 0⟩
  | .obj _ => do
    let inputTokens ← decodeField j "input_tokens" Json.asInt 0
    let outputTokens ← decodeField j "output_tokens" Json.asInt 0
    .ok ⟨inputTokens, outputTokens⟩
  | _ => .error "json: cannot unmarshal value into Go value of type gollama.BatchUsage"

/-- BatchMessageResult represents the message in a batch result
(utils.go), in Anthropic format. -/
structure BatchMessageResult where
  id : String
  type : String
  role : String
  content : List BatchContentBlock
  model : String
  stopReason : String := ""
  stopSequence : String := ""
  usage : BatchUsage := ⟨0, 0⟩
deriving DecidableEq

/-- Go unmarshal of a `BatchMessageResult`. -/
def BatchMessageResult.decodeJSON (j : Json) : Except String BatchMessageResult :=
  match j with
  | .null => .ok ⟨"", "", "", [], "", "", "", ⟨0, 0⟩⟩
  | .obj _ => do
    let id ← decodeField j "id" Json.asString ""
    let type ← decodeField j "type" Json.asString ""
    let role ← decodeField j "role" Json.asString ""
    let content ← decodeField j "content" (Json.asListOf BatchContentBlock.decodeJSON) []
    let model ← decodeField j "model" Json.asString ""
    let stopReason ← decodeField j "stop_reason" Json.asString ""
    let stopSequence ← decodeField j "stop_sequence" Json.asString ""
    let usage ← decodeField j "usage" BatchUsage.decodeJSON ⟨0, 0⟩
    .ok ⟨id, type, role, content, model, stopReason, stopSequence, usage⟩
  | _ => .error "json: cannot unmarshal value into Go value of type gollama.BatchMessageResult"

/-- BatchResultDetail contains the result or error for a batch request
(utils.go); `Message` and `Error` are pointers in Go. -/
structure BatchResultDetail where
  type : String
  message : Option BatchMessageResult := none
  error : Option BatchError := none

/-- Go unmarshal of a `BatchResultDetail`. -/
def BatchResultDetail.decodeJSON (j : Json) : Except String BatchResultDetail :=
  match j with
  | .null => .ok ⟨"", none, none⟩
  | .obj _ => do
    let type ← decodeField j "type" Json.asString ""
    let message ← decodeField j "message" (Json.asOptionOf BatchMessageResult.decodeJSON) none
    let error ← decodeField j "error" (Json.asOptionOf BatchError.decodeJSON) none
    .ok ⟨type, message, error⟩
  | _ => .error "json: cannot unmarshal value into Go value of type gollama.BatchResultDetail"

/-- BatchResult represents a single result from a batch (utils.go). -/
structure BatchResult where
  customID : String
  result : BatchResultDetail

/-- Go unmarshal of a `BatchResult` (one JSONL line of a results
stream). -/
def BatchResult.decodeJSON (j : Json) : Except String BatchResult :=
  match j with
  | .null => .ok ⟨"", ⟨"", none, none⟩⟩
  | .obj _ => do
    let customID ← decodeField j "custom_id" Json.asString ""
    let result ← decodeField j "result" BatchResultDetail.decodeJSON ⟨"", none, none⟩
    .ok ⟨customID, result⟩
  | _ => .error "json: cannot unmarshal value into Go value of type gollama.BatchResult"

/-- PromptTokensDetails provides detailed prompt token usage
(types.go lines 153-155). -/
structure PromptTokensDetails where
  cachedTokens : Int
deriving DecidableEq

/-- Go unmarshal of a `PromptTokensDetails`; `cached_tokens` defaults to
zero when the key is absent. -/
def PromptTokensDetails.decodeJSON (j : Json) : Except String PromptTokensDetails :=
  match j with
  | .null => .ok ⟨0⟩
  | .obj _ => do
    let cachedTokens ← decodeField j "cached_tokens" Json.asInt 0
    .ok ⟨cachedTokens⟩
  | _ => .error "json: cannot unmarshal value into Go value of type gollama.PromptTokensDetails"

/-- Usage represents token usage in API responses (types.go lines
145-150). `PromptTokensDetails` is a pointer in Go, hence an `Option`:
when the JSON key is absent or null the pointer stays nil. -/
structure Usage where
  promptTokens : Int
  completionTokens : Int
  totalTokens : Int
  promptTokensDetails : Option PromptTokensDetails
deriving DecidableEq

/-- Go unmarshal of a `Usage`. -/
def Usage.decodeJSON (j : Json) : Except String Usage :=
  match j with
  | .null => .ok ⟨0, 0, 0, none⟩
  | .obj _ => do
    let promptTokens ← decodeField j "prompt_tokens" Json.asInt 0
    let completionTokens ← decodeField j "completion_tokens" Json.asInt 0
    let totalTokens ← decodeField j "total_tokens" Json.asInt 0
    let promptTokensDetails ← decodeField j "prompt_tokens_details"
      (Json.asOptionOf PromptTokensDetails.decodeJSON) none
    .ok ⟨promptTokens, completionTokens, totalTokens, promptTokensDetails⟩
  | _ => .error "json: cannot unmarshal value into Go value of type gollama.Usage"

/-- GenChoice represents one completion choice in OpenAI-compatible
responses (types.go). -/
structure GenChoice where
  index : Int
  message : Message
deriving DecidableEq

/-- Go unmarshal of a `GenChoice`. -/
def GenChoice.decodeJSON (j : Json) : Except String GenChoice :=
  match j with
  | .null => .ok ⟨0, { role := "", content := "" }⟩
  | .obj _ => do
    let index ← decodeField j "index" Json.asInt 0
    let message ← decodeField j "message" Message.decodeJSON { role := "", content := "" }
    .ok ⟨index, message⟩
  | _ => .error "json: cannot unmarshal value into Go value of type gollama.GenChoice"

/-- ResponseMessageGenerate represents a response from the
OpenAI-compatible chat-completions endpoint (types.go lines 129-136). -/
structure ResponseMessageGenerate where
  model : String
  choices : List GenChoice
  createdAt : String
  done : Bool
  error : String := ""
  usage : Usage := ⟨0, 0, 0, none⟩
deriving DecidableEq

/-- Go unmarshal of a `ResponseMessageGenerate`. -/
def ResponseMessageGenerate.decodeJSON (j : Json) : Except String ResponseMessageGenerate :=
  match j with
  | .null => .ok ⟨"", [], "", false, "", ⟨0, 0, 0, none⟩⟩
  | .obj _ => do
    let model ← decodeField j "model" Json.asString ""
    let choices ← decodeField j "choices" (Json.asListOf GenChoice.decodeJSON) []
    let createdAt ← decodeField j "created_at" Json.asString ""
    let done ← decodeField j "done" Json.asBool false
    let error ← decodeField j "error" Json.asString ""
    let usage ← decodeField j "usage" Usage.decodeJSON ⟨0, 0, 0, none⟩
    .ok ⟨model, choices, createdAt, done, error, usage⟩
  | _ => .error "json: cannot unmarshal value into Go value of type gollama.ResponseMessageGenerate"

/-- ResponseMessage represents a response from the chat endpoint
(types.go lines 116-126). -/
structure ResponseMessage where
  model : String
  message : Message
  createdAt : String
  done : Bool
  error : String := ""
  promptEvalCount : Int := 0
  promptEvalDuration : Int := 0
  evalDuration : Int := 0
  evalCount : Int := 0
deriving DecidableEq

/-- Go unmarshal of a `ResponseMessage`. -/
def ResponseMessage.decodeJSON (j : Json) : Except String ResponseMessage :=
  match j with
  | .null => .ok ⟨"", { role := "", content := "" }, "", false, "", 0, 0, 0, 0⟩
  | .obj _ => do
    let model ← decodeField j "model" Json.asString ""
    let message ← decodeField j "message" Message.decodeJSON { role := "", content := "" }
    let createdAt ← decodeField j "created_at" Json.asString ""
    let done ← decodeField j "done" Json.asBool false
    let error ← decodeField j "error" Json.asString ""
    let promptEvalCount ← decodeField j "prompt_eval_count" Json.asInt 0
    let promptEvalDuration ← decodeField j "prompt_eval_duration" Json.asInt 0
    let evalDuration ← decodeField j "eval_duration" Json.asInt 0
    let evalCount ← decodeField j "eval_count" Json.asInt 0
    .ok ⟨model, message, createdAt, done, error,
         promptEvalCount, promptEvalDuration, evalDuration, evalCount⟩
  | _ => .error "json: cannot unmarshal value into Go value of type gollama.ResponseMessage"

/-- GenerateResponse represents a response from the generate endpoint
(types.go lines 101-113). -/
structure GenerateResponse where
  model : String
  createdAt : String
  response : String
  done : Bool
  context : List Int := []
  totalDuration : Int := 0
  loadDuration : Int := 0
  promptEvalDuration : Int := 0
  evalDuration : Int := 0
  evalCount : Int := 0
  error : String := ""
deriving DecidableEq

/-- Go unmarshal of a `GenerateResponse`. -/
def GenerateResponse.decodeJSON (j : Json) : Except String GenerateResponse :=
  match j with
  | .null => .ok ⟨"", "", "", false, [], 0, 0, 0, 0, 0, ""⟩
  | .obj _ => do
    let model ← decodeField j "model" Json.asString ""
    let createdAt ← decodeField j "created_at" Json.asString ""
    let response ← decodeField j "response" Json.asString ""
    let done ← decodeField j "done" Json.asBool false
    let context ← decodeField j "context" (Json.asListOf Json.asInt) []
    let totalDuration ← decodeField j "total_duration" Json.asInt 0
    let loadDuration ← decodeField j "load_duration" Json.asInt 0
    let promptEvalDuration ← decodeField j "prompt_eval_duration" Json.asInt 0
    let evalDuration ← decodeField j "eval_duration" Json.asInt 0
    let evalCount ← decodeField j "eval_count" Json.asInt 0
    let error ← decodeField j "error" Json.asString ""
    .ok ⟨model, createdAt, response, done, context, totalDuration, loadDuration,
         promptEvalDuration, evalDuration, evalCount, error⟩
  | _ => .error "json: cannot unmarshal value into Go value of type gollama.GenerateResponse"

/-! The client operations. The HTTP layer is abstracted: a response body
is modelled as the stream of JSON values `encoding/json` would read from
it (`none` marking a syntactically malformed value), and the transport as
a function from a dispatched request to an outcome. Every operation
returns its result together with the list of requests it dispatched, in
dispatch order. -/

/-- An HTTP response as seen by the decoders: the status code and the
body as a stream of parse results, one per JSON value; `none` marks a
malformed value at that position. -/
structure HttpResponse where
  status : Nat
  body : List (Option Json)

/-- A request dispatched over the wire. The payload (the marshaled
request options) is not recorded: no claim inspects it. -/
structure DispatchedRequest where
  method : String
  endpoint : String
deriving DecidableEq

/-- The outcome the HTTP transport produces for a dispatched request:
either a connection-level failure or a response. -/
inductive TransportOutcome where
  | failure (msg : String)
  | response (resp : HttpResponse)

/-- The abstracted HTTP transport. -/
def Transport : Type := DispatchedRequest → TransportOutcome

/-- Options for API requests (types.go lines 9-23). Only the fields the
client's control flow reads are given behavior; the rest ride along as
data. -/
structure RequestOptions where
  model : String
  prompt : String := ""
  system : String := ""
  context : List Int := []
  format : String := ""
  raw : Bool := false
  images : List String := []
  stream : Bool := false
  messages : List Message := []
  think : Bool := false
  toolChoice : String := ""

/-- Model of `Client.prepareRequest` (part_000 / client.go lines 359-387): POSTs
the marshaled body to the endpoint; a transport failure or a non-200
status is an error (Go also appends the response body text to the
non-200 error). Marshaling itself cannot fail in this model. Returns the
dispatched request alongside. -/
def Client.prepareRequest (transport : Transport) (endpoint : String) :
    Except String HttpResponse × List DispatchedRequest :=
  let req : DispatchedRequest := ⟨"POST", endpoint⟩
  match transport req with
  | .failure msg => (.error ("error sending request: " ++ msg), [req])
  | .response resp =>
    if resp.status ≠ 200 then
      (.error ("API returned non-200 status code " ++ toString resp.status), [req])
    else
      (.ok resp, [req])

/-- Model of `Client.prepareGet` (part_000 / client.go lines 389-411): like
`prepareRequest` with method GET and no body. -/
def Client.prepareGet (transport : Transport) (endpoint : String) :
    Except String HttpResponse × List DispatchedRequest :=
  let req : DispatchedRequest := ⟨"GET", endpoint⟩
  match transport req with
  | .failure msg => (.error ("error sending request: " ++ msg), [req])
  | .response resp =>
    if resp.status ≠ 200 then
      (.error ("API returned non-200 status code " ++ toString resp.status), [req])
    else
      (.ok resp, [req])

/-- Model of `Client.handleGenerateResponse` (client.go lines 252-260): decode a
single JSON value from the body; an empty body is a plain decode error
(Go: EOF), as is a malformed or mismatched value. -/
def Client.handleGenerateResponse (resp : HttpResponse) : Except String GenerateResponse :=
  match resp.body with
  | [] => .error "error decoding response: EOF"
  | none :: _ => .error "error decoding response: invalid character"
  | some j :: _ =>
    match GenerateResponse.decodeJSON j with
    | .error e => .error ("error decoding response: " ++ e)
    | .ok r => .ok r

/-- Model of `Client.handleGenerateStream` (client.go lines 263-274): if
`decoder.More()` reports a value, decode and return just that first
value, never touching the rest of the stream; an exhausted stream is the
dedicated "empty response stream" error. -/
def Client.handleGenerateStream (resp : HttpResponse) : Except String GenerateResponse :=
  match resp.body with
  | [] => .error "empty response stream"
  | none :: _ => .error "error decoding streaming response: invalid character"
  | some j :: _ =>
    match GenerateResponse.decodeJSON j with
    | .error e => .error ("error decoding streaming response: " ++ e)
    | .ok r => .ok r

/-- Model of `Client.Generate` (client.go lines 234-249): dispatch to
`/api/generate`, then route on the stream flag. -/
def Client.Generate (transport : Transport) (opts : RequestOptions) :
    Except String GenerateResponse × List DispatchedRequest :=
  match Client.prepareRequest transport "/api/generate" with
  | (.error e, trace) => (.error e, trace)
  | (.ok resp, trace) =>
    if opts.stream then (Client.handleGenerateStream resp, trace)
    else (Client.handleGenerateResponse resp, trace)

/-- Model of `Client.handleChatResponse` (client.go lines 345-353): decode a
single `ResponseMessage` from the body. -/
def Client.handleChatResponse (resp : HttpResponse) : Except String ResponseMessage :=
  match resp.body with
  | [] => .error "error decoding response: EOF"
  | none :: _ => .error "error decoding response: invalid character"
  | some j :: _ =>
    match ResponseMessage.decodeJSON j with
    | .error e => .error ("error decoding response: " ++ e)
    | .ok r => .ok r

/-- Model of `Client.handleChatStream` (client.go lines 355-357): a fixed
error. -/
def Client.handleChatStream (_resp : HttpResponse) : Except String ResponseMessage :=
  .error "not dealing with streams yet"

/-- Model of `Client.Chat` (client.go lines 277-292): dispatch to `/api/chat`,
then route on the stream flag. -/
def Client.Chat (transport : Transport) (opts : RequestOptions) :
    Except String ResponseMessage × List DispatchedRequest :=
  match Client.prepareRequest transport "/api/chat" with
  | (.error e, trace) => (.error e, trace)
  | (.ok resp, trace) =>
    if opts.stream then (Client.handleChatStream resp, trace)
    else (Client.handleChatResponse resp, trace)

/-- Model of `Client.ChatCompletion` (openai.go / client.go lines 322-343):
dispatch to `/chat/completions`; with the stream flag set, a fixed
error; otherwise decode a `ResponseMessageGenerate`. -/
def Client.ChatCompletion (transport : Transport) (opts : RequestOptions) :
    Except String ResponseMessageGenerate × List DispatchedRequest :=
  match Client.prepareRequest transport "/chat/completions" with
  | (.error e, trace) => (.error e, trace)
  | (.ok resp, trace) =>
    if opts.stream then
      (.error "not doing streaming", trace)
    else
      match resp.body with
      | [] => ((.error "error decoding response: EOF"), trace)
      | none :: _ => ((.error "error decoding response: invalid character"), trace)
      | some j :: _ =>
        match ResponseMessageGenerate.decodeJSON j with
        | .error e => ((.error ("error decoding response: " ++ e)), trace)
        | .ok r => (.ok r, trace)

/-- The query-string construction of `Client.ListBatches` (utils.go /
client.go lines 580-600): up to three parameters appended conditionally,
then joined onto the path with one `?` and `&` separators, mirroring
the Go loop over `params[1:]`. -/
def ListBatchesEndpoint (limit : Int) (beforeID afterID : String) : String :=
  let endpoint := "/messages/batches"
  let params : List String := []
  let params := if limit > 0 then params ++ ["limit=" ++ toString limit] else params
  let params := if beforeID ≠ "" then params ++ ["before_id=" ++ beforeID] else params
  let params := if afterID ≠ "" then params ++ ["after_id=" ++ afterID] else params
  match params with
  | [] => endpoint
  | p :: ps => ps.foldl (fun e param => e ++ "&" ++ param) (endpoint ++ "?" ++ p)

/-- The decode loop of `Client.GetBatchResults` (client.go lines
642-663): `lineNum` starts at 0 and is incremented at the top of each
iteration, so the error message carries the 1-indexed position; any
per-value failure aborts the whole call. The accumulator mirrors
`results = append(results, result)`. (The repository's debug `Printf`
calls change no state and are not modelled.) -/
def GetBatchResultsLoop : List (Option Json) → Nat → List BatchResult →
    Except String (List BatchResult)
  | [], _, results => .ok results
  | item :: rest, lineNum, results =>
    match item with
    | none =>
      .error ("error decoding batch result at line " ++ toString (lineNum + 1)
        ++ ": invalid character")
    | some j =>
      match BatchResult.decodeJSON j with
      | .error e =>
        .error ("error decoding batch result at line " ++ toString (lineNum + 1)
          ++ ": " ++ e)
      | .ok result => GetBatchResultsLoop rest (lineNum + 1) (results ++ [result])

/-- Model of `Client.GetBatchResults` (client.go lines 634-666): GET the results
endpoint and run the JSONL decode loop over the body. -/
def Client.GetBatchResults (transport : Transport) (batchID : String) :
    Except String (List BatchResult) × List DispatchedRequest :=
  match Client.prepareGet transport ("/messages/batches/" ++ batchID ++ "/results") with
  | (.error e, trace) => (.error e, trace)
  | (.ok resp, trace) => (GetBatchResultsLoop resp.body 0 [], trace)

/-! Concrete values used by witnesses and counterexamples. -/

/-- A sample message carrying one image and a thinking field. -/
def msgWithImage : Message :=
  { role := "user", content := "describe this", thinking := "th", images := ["IMGDATA"] }

/-- A sample image-free message with every optional field populated. -/
def msgFlat : Message :=
  { role := "assistant", content := "hello", thinking := "t", reasoningContent := "r",
    toolCalls := [⟨⟨"f", "a"⟩, "function", "id1"⟩], toolCallID := "c1" }

/-- A chat response whose message content is a structured part array. -/
def arrayContentRespJson : Json :=
  .obj [("model", .str "m"),
        ("message", .obj [("role", .str "assistant"),
                          ("content", .arr [.obj [("type", .str "text"),
                                                  ("text", .str "hello")]])]),
        ("created_at", .str "t"),
        ("done", .bool true)]

/-- A transport answering every request with an empty 200 response. -/
def okTransport : Transport := fun _ => .response ⟨200, []⟩

/-- A usage object lacking the prompt_tokens_details key. -/
def usageNoDetails : Json :=
  .obj [("prompt_tokens", .num 19), ("completion_tokens", .num 10),
        ("total_tokens", .num 29)]

/-- A chat-completion response whose usage lacks prompt_tokens_details. -/
def respNoDetails : Json :=
  .obj [("model", .str "m"), ("choices", .arr []), ("usage", usageNoDetails)]

/-- A well-formed batch-result line. -/
def batchLine1 : Json :=
  .obj [("custom_id", .str "a"), ("result", .obj [("type", .str "succeeded")])]

/-- A second well-formed batch-result line. -/
def batchLine2 : Json :=
  .obj [("custom_id", .str "b"), ("result", .obj [("type", .str "errored")])]

/-! Shared helper lemmas. -/

/-- Decoding a marshaled tool-call list recovers the list. -/
theorem decodeElems_marshal_toolCalls (tcs : List ToolCall) :
    decodeElems ToolCall.decodeJSON (tcs.map ToolCall.marshalJSON) = .ok tcs := by
  induction tcs with
  | nil => rfl
  | cons tc rest ih =>
    simp [List.map_cons, decodeElems]
    rw [show ToolCall.decodeJSON tc.marshalJSON = .ok tc from rfl, ih]

/-- Successful elementwise decoding preserves the element count. -/
theorem decodeElems_length (dec : Json → Except String α) :
    ∀ (xs : List Json) (ys : List α), decodeElems dec xs = .ok ys → ys.length = xs.length := by
  intro xs
  induction xs with
  | nil =>
    intro ys h
    simp [decodeElems] at h
    simp [← h]
  | cons x rest ih =>
    intro ys h
    simp only [decodeElems] at h
    cases hx : dec x with
    | error e => rw [hx] at h; exact absurd h (by simp)
    | ok v =>
      rw [hx] at h
      cases hr : decodeElems dec rest with
      | error e => rw [hr] at h; exact absurd h (by simp)
      | ok vs =>
        rw [hr] at h
        simp at h
        subst h
        simp [ih vs hr]

/-- Running the batch-results loop over a run of values that all decode
appends their decodings to the accumulator and continues behind them. -/
theorem getBatchResultsLoop_run :
    ∀ (pre : List Json) (rs : List BatchResult), decodeElems BatchResult.decodeJSON pre = .ok rs →
      ∀ (tail : List (Option Json)) (n : Nat) (acc : List BatchResult),
        GetBatchResultsLoop (pre.map some ++ tail) n acc
          = GetBatchResultsLoop tail (n + pre.length) (acc ++ rs) := by
  intro pre
  induction pre with
  | nil =>
    intro rs h tail n acc
    simp [decodeElems] at h
    subst h
    simp
  | cons j rest ih =>
    intro rs h tail n acc
    simp only [decodeElems] at h
    cases hj : BatchResult.decodeJSON j with
    | error e => rw [hj] at h; exact absurd h (by simp)
    | ok r =>
      rw [hj] at h
      cases hr : decodeElems BatchResult.decodeJSON rest with
      | error e => rw [hr] at h; exact absurd h (by simp)
      | ok rs2 =>
        rw [hr] at h
        simp at h
        subst h
        simp only [List.map_cons, List.cons_append, GetBatchResultsLoop, hj,
          List.append_eq]
        rw [ih rs2 hr tail (n + 1) (acc ++ [r])]
        have h1 : n + 1 + rest.length = n + (j :: rest).length := by
          simp [List.length_cons]; omega
        have h2 : acc ++ [r] ++ rs2 = acc ++ r :: rs2 := by simp
        rw [h1, h2]

/-! Claim theorems. -/

/-- Claim C1: for every Message whose Images list is non-empty, the
encoder produces a JSON object whose content field is a structured array
whose first element is the text part and whose remaining elements are the
image parts in input order, with exactly one image part per image; the
optional fields thinking, reasoning_content, tool_calls and tool_call_id
are attached as sibling keys exactly when non-empty. -/
theorem marshal_with_images_structured (m : Message) (h : m.images ≠ []) :
    m.MarshalJSON.getField "content"
      = some (.arr (.obj [("type", .str "text"), ("text", .str m.content)]
          :: m.images.map imagePart))
    ∧ (m.images.map imagePart).length = m.images.length
    ∧ m.MarshalJSON.getField "role" = some (.str m.role)
    ∧ m.MarshalJSON.getField "thinking"
      = (if m.thinking = "" then none else some (.str m.thinking))
    ∧ m.MarshalJSON.getField "reasoning_content"
      = (if m.reasoningContent = "" then none else some (.str m.reasoningContent))
    ∧ m.MarshalJSON.getField "tool_calls"
      = (if m.toolCalls.isEmpty then none
         else some (.arr (m.toolCalls.map ToolCall.marshalJSON)))
    ∧ m.MarshalJSON.getField "tool_call_id"
      = (if m.toolCallID = "" then none else some (.str m.toolCallID)) := by
  have hne : m.images.isEmpty = false := by simp [List.isEmpty_iff, h]
  refine ⟨?_, by simp, ?_, ?_, ?_, ?_, ?_⟩ <;>
    (by_cases h1 : m.thinking = "" <;>
      by_cases h2 : m.reasoningContent = "" <;>
      by_cases h3 : m.toolCalls.isEmpty <;>
      by_cases h4 : m.toolCallID = "" <;>
      simp [Message.MarshalJSON, hne, Json.getField, lookupField, h1, h2, h3, h4])

/-- Witness for C1 at a concrete one-image message. -/
theorem marshal_with_images_structured_witness :
    msgWithImage.images ≠ [] ∧
    msgWithImage.MarshalJSON.getField "content"
      = some (.arr [.obj [("type", .str "text"), ("text", .str "describe this")],
          imagePart "IMGDATA"]) :=
  ⟨by decide, (marshal_with_images_structured msgWithImage (by decide)).1⟩

/-- Counterexample to claim C2: a response message whose content is a
structured part array does not decode; `Chat` response decoding fails
instead of recombining the text parts. -/
theorem chat_array_content_decode_fails :
    Client.handleChatResponse ⟨200, [some arrayContentRespJson]⟩
      = .error "error decoding response: json: cannot unmarshal value into Go value of type string" :=
  rfl

/-- Claim C2 (amended): response-message decoding accepts only a flat
string content, which it returns in Content unchanged; a structured part
array for content makes the decode of the response fail (there is no
custom content decoder anywhere in the repository). -/
theorem chat_decode_flat_string_only (r s : String) (parts : List Json) :
    Client.handleChatResponse ⟨200, [some (.obj [("model", .str "m"),
        ("message", .obj [("role", .str r), ("content", .str s)]),
        ("done", .bool true)])]⟩
      = .ok { model := "m", message := { role := r, content := s },
              createdAt := "", done := true }
    ∧ Client.handleChatResponse ⟨200, [some (.obj [("model", .str "m"),
        ("message", .obj [("role", .str r), ("content", .arr parts)]),
        ("done", .bool true)])]⟩
      = .error "error decoding response: json: cannot unmarshal value into Go value of type string" :=
  ⟨rfl, rfl⟩

/-- Claim C3: GetErrorMessage agrees with the spec's four-step priority
chain on every BatchError, and each of the four priority branches is
reached by some input. -/
theorem getErrorMessage_priority :
    (∀ be : BatchError, be.GetErrorMessage = resolveMessageSpec be)
    ∧ BatchError.GetErrorMessage ⟨"top_type", "top_msg", some ⟨"nested_type", "nested_msg", []⟩⟩
        = "nested_msg"
    ∧ BatchError.GetErrorMessage ⟨"top_type", "top_msg", some ⟨"nested_type", "", []⟩⟩
        = "top_msg"
    ∧ BatchError.GetErrorMessage ⟨"top_type", "", some ⟨"nested_type", "", []⟩⟩
        = "nested_type"
    ∧ BatchError.GetErrorMessage ⟨"top_type", "", some ⟨"", "", []⟩⟩
        = "top_type" := by
  refine ⟨?_, rfl, rfl, rfl, rfl⟩
  intro be
  rcases be with ⟨t, m, e⟩
  cases e with
  | none => simp [BatchError.GetErrorMessage, resolveMessageSpec]
  | some n => simp [BatchError.GetErrorMessage, resolveMessageSpec]

/-- Claim C5: the ListBatches endpoint equals the path plus a query
string built from the optional parameters in the stable order limit,
before_id, after_id, joined by ampersands, with a question mark only
when at least one parameter is present; limit is omitted unless
positive and the ids are omitted exactly when empty. -/
theorem listBatches_query_shape :
    ∀ (limit : Int) (beforeID afterID : String),
      ListBatchesEndpoint limit beforeID afterID =
        (let params :=
          (if limit > 0 then ["limit=" ++ toString limit] else [])
          ++ (if beforeID ≠ "" then ["before_id=" ++ beforeID] else [])
          ++ (if afterID ≠ "" then ["after_id=" ++ afterID] else []);
         if params = [] then "/messages/batches"
         else "/messages/batches?" ++ String.intercalate "&" params) := by
  intro limit b a
  by_cases hl : limit > 0 <;> by_cases hb : b ≠ "" <;> by_cases ha : a ≠ "" <;>
    simp [ListBatchesEndpoint, hl, hb, ha, String.intercalate, String.intercalate.go,
      ← String.append_assoc]

/-- Claim C10: non-empty before and after ids are interpolated into the
query verbatim, character for character and unescaped, so an id
containing an ampersand changes the query structure. -/
theorem listBatches_ids_verbatim (limit : Int) (b a : String) (hb : b ≠ "") (ha : a ≠ "") :
    ListBatchesEndpoint limit b "" =
      ListBatchesEndpoint limit "" "" ++ (if limit > 0 then "&" else "?")
        ++ ("before_id=" ++ b)
    ∧ ListBatchesEndpoint limit "" a =
      ListBatchesEndpoint limit "" "" ++ (if limit > 0 then "&" else "?")
        ++ ("after_id=" ++ a)
    ∧ ListBatchesEndpoint limit b a =
      ListBatchesEndpoint limit b "" ++ "&" ++ ("after_id=" ++ a)
    ∧ ListBatchesEndpoint 0 "x&after_id=y" "" = ListBatchesEndpoint 0 "x" "y" := by
  refine ⟨?_, ?_, ?_, by decide⟩ <;>
    (by_cases hl : limit > 0 <;>
      simp [ListBatchesEndpoint, hl, hb, ha, ← String.append_assoc])

/-- Witness for C10 at concrete ids with a positive limit. -/
theorem listBatches_ids_verbatim_witness :
    ("b1" : String) ≠ "" ∧ ("a2" : String) ≠ ""
    ∧ ListBatchesEndpoint 5 "b1" "" = "/messages/batches?limit=5&before_id=b1" :=
  ⟨by decide, by decide, by
    rw [(listBatches_ids_verbatim 5 "b1" "a2" (by decide) (by decide)).1]
    decide⟩

/-- Claim C4: on a 200 response whose body is a stream of decodable JSON
values, GetBatchResults returns exactly those results in stream order,
one per value; when the value at 1-indexed position K is malformed (the
values before it being well-formed), the whole call returns an error
naming line K and no results at all. -/
theorem getBatchResults_all_or_nothing (vals pre : List Json) (rs rs2 : List BatchResult)
    (rest : List (Option Json)) (bid : String)
    (hvals : decodeElems BatchResult.decodeJSON vals = .ok rs)
    (hpre : decodeElems BatchResult.decodeJSON pre = .ok rs2) :
    (Client.GetBatchResults (fun _ => .response ⟨200, vals.map some⟩) bid).1 = .ok rs
    ∧ rs.length = vals.length
    ∧ (Client.GetBatchResults (fun _ => .response ⟨200, pre.map some ++ none :: rest⟩) bid).1
      = .error ("error decoding batch result at line " ++ toString (pre.length + 1)
          ++ ": invalid character") := by
  refine ⟨?_, decodeElems_length _ _ _ hvals, ?_⟩
  · have h := getBatchResultsLoop_run vals rs hvals [] 0 []
    simp at h
    simp [Client.GetBatchResults, Client.prepareGet, h, GetBatchResultsLoop]
  · have h := getBatchResultsLoop_run pre rs2 hpre (none :: rest) 0 []
    simp at h
    simp [Client.GetBatchResults, Client.prepareGet, h, GetBatchResultsLoop]

/-- Witness for C4 at a two-line body and at a body whose third value is
malformed. -/
theorem getBatchResults_all_or_nothing_witness :
    decodeElems BatchResult.decodeJSON [batchLine1, batchLine2]
      = .ok [⟨"a", ⟨"succeeded", none, none⟩⟩, ⟨"b", ⟨"errored", none, none⟩⟩]
    ∧ (Client.GetBatchResults
        (fun _ => .response ⟨200, [batchLine1, batchLine2].map some⟩) "batch_1").1
      = .ok [⟨"a", ⟨"succeeded", none, none⟩⟩, ⟨"b", ⟨"errored", none, none⟩⟩]
    ∧ (Client.GetBatchResults
        (fun _ => .response ⟨200, [batchLine1, batchLine2].map some ++ none :: []⟩)
        "batch_1").1
      = .error "error decoding batch result at line 3: invalid character" :=
  ⟨rfl,
   (getBatchResults_all_or_nothing [batchLine1, batchLine2] [batchLine1, batchLine2]
      _ _ [] "batch_1" rfl rfl).1,
   (getBatchResults_all_or_nothing [batchLine1, batchLine2] [batchLine1, batchLine2]
      [⟨"a", ⟨"succeeded", none, none⟩⟩, ⟨"b", ⟨"errored", none, none⟩⟩]
      [⟨"a", ⟨"succeeded", none, none⟩⟩, ⟨"b", ⟨"errored", none, none⟩⟩]
      [] "batch_1" rfl rfl).2.2⟩

/-- Counterexample to claim C6: with the stream flag set, Chat and
ChatCompletion do return their fixed errors, but a request is dispatched
before the failure: the dispatch list is not empty. -/
theorem chat_stream_dispatches_first :
    (Client.Chat okTransport { model := "m", stream := true }).1
      = .error "not dealing with streams yet"
    ∧ (Client.Chat okTransport { model := "m", stream := true }).2 ≠ []
    ∧ (Client.Chat okTransport { model := "m", stream := true }).2
      = [⟨"POST", "/api/chat"⟩]
    ∧ (Client.ChatCompletion okTransport { model := "m", stream := true }).1
      = .error "not doing streaming"
    ∧ (Client.ChatCompletion okTransport { model := "m", stream := true }).2
      = [⟨"POST", "/chat/completions"⟩] :=
  ⟨rfl, by decide, rfl, rfl, rfl⟩

/-- Claim C6 (amended): with Stream = true, Chat fails with its fixed
error and ChatCompletion always fails with its fixed error, but only
after the HTTP request has been dispatched: the request always goes out
first, and the fixed streaming error is what comes back whenever the
transport yields a 200 response. -/
theorem chat_stream_fixed_error_after_dispatch (transport : Transport)
    (opts : RequestOptions) (h : opts.stream = true) :
    (Client.Chat transport opts).2 = [⟨"POST", "/api/chat"⟩]
    ∧ (Client.ChatCompletion transport opts).2 = [⟨"POST", "/chat/completions"⟩]
    ∧ (∀ resp : HttpResponse, transport ⟨"POST", "/api/chat"⟩ = .response resp →
        resp.status = 200 →
        (Client.Chat transport opts).1 = .error "not dealing with streams yet")
    ∧ (∀ resp : HttpResponse, transport ⟨"POST", "/chat/completions"⟩ = .response resp →
        resp.status = 200 →
        (Client.ChatCompletion transport opts).1 = .error "not doing streaming") := by
  refine ⟨?_, ?_, ?_, ?_⟩
  · simp only [Client.Chat, Client.prepareRequest]
    cases htr : transport ⟨"POST", "/api/chat"⟩ with
    | failure msg => simp
    | response resp => by_cases hs : resp.status = 200 <;> simp [hs, h]
  · simp only [Client.ChatCompletion, Client.prepareRequest]
    cases htr : transport ⟨"POST", "/chat/completions"⟩ with
    | failure msg => simp
    | response resp => by_cases hs : resp.status = 200 <;> simp [hs, h]
  · intro resp htr h200
    simp [Client.Chat, Client.prepareRequest, htr, h200, h, Client.handleChatStream]
  · intro resp htr h200
    simp [Client.ChatCompletion, Client.prepareRequest, htr, h200, h]

/-- Witness for the amended C6 at a concrete transport and options. -/
theorem chat_stream_fixed_error_after_dispatch_witness :
    ({ model := "m", stream := true } : RequestOptions).stream = true
    ∧ (Client.Chat okTransport { model := "m", stream := true }).2
      = [⟨"POST", "/api/chat"⟩] :=
  ⟨rfl, (chat_stream_fixed_error_after_dispatch okTransport
    { model := "m", stream := true } rfl).1⟩

/-- Claim C7: streamed Generate decodes and returns only the first JSON
value of the response stream, independent of everything behind it; an
empty streamed 200 body is the dedicated empty-stream error, while the
non-streaming path reports an empty 200 body as a decode error. -/
theorem generate_stream_first_value (j : Json) (rest : List (Option Json))
    (opts optsNoStream : RequestOptions)
    (h : opts.stream = true) (h2 : optsNoStream.stream = false) :
    (Client.Generate (fun _ => .response ⟨200, some j :: rest⟩) opts).1
      = (Client.Generate (fun _ => .response ⟨200, [some j]⟩) opts).1
    ∧ (Client.Generate (fun _ => .response ⟨200, []⟩) opts).1
      = .error "empty response stream"
    ∧ (Client.Generate (fun _ => .response ⟨200, []⟩) optsNoStream).1
      = .error "error decoding response: EOF" := by
  refine ⟨?_, ?_, ?_⟩ <;>
    simp [Client.Generate, Client.prepareRequest, h, h2,
      Client.handleGenerateStream, Client.handleGenerateResponse]

/-- Witness for C7 at concrete options and a stream with trailing
garbage. -/
theorem generate_stream_first_value_witness :
    ({ model := "m", stream := true } : RequestOptions).stream = true
    ∧ ({ model := "m" } : RequestOptions).stream = false
    ∧ (Client.Generate (fun _ => .response ⟨200, []⟩)
        { model := "m", stream := true }).1 = .error "empty response stream" :=
  ⟨rfl, rfl, (generate_stream_first_value (.obj []) [none]
    { model := "m", stream := true } { model := "m" } rfl rfl).2.1⟩

/-- Claim C8: an image-free message encodes to the flat object form and
decoding that encoding returns the identical message, so Content
round-trips as a flat string; in the flat form the optional fields
appear exactly when non-empty and role and content are always
present. -/
theorem marshal_flat_roundtrip (m : Message) (h : m.images = []) :
    Message.decodeJSON m.MarshalJSON = .ok m
    ∧ m.MarshalJSON.getField "role" = some (.str m.role)
    ∧ m.MarshalJSON.getField "content" = some (.str m.content)
    ∧ m.MarshalJSON.getField "thinking"
      = (if m.thinking = "" then none else some (.str m.thinking))
    ∧ m.MarshalJSON.getField "reasoning_content"
      = (if m.reasoningContent = "" then none else some (.str m.reasoningContent))
    ∧ m.MarshalJSON.getField "images" = none
    ∧ m.MarshalJSON.getField "tool_calls"
      = (if m.toolCalls = [] then none
         else some (.arr (m.toolCalls.map ToolCall.marshalJSON)))
    ∧ m.MarshalJSON.getField "tool_call_id"
      = (if m.toolCallID = "" then none else some (.str m.toolCallID)) := by
  obtain ⟨role, content, thinking, rc, images, tcs, tcid⟩ := m
  simp only [Message.images] at h
  subst h
  refine ⟨?_, ?_, ?_, ?_, ?_, ?_, ?_, ?_⟩ <;>
    (by_cases h1 : thinking = "" <;>
      by_cases h2 : rc = "" <;>
      by_cases h3 : tcs = [] <;>
      by_cases h4 : tcid = "" <;>
      simp [Message.MarshalJSON, Message.marshalFlat, Message.decodeJSON, decodeField,
        Json.getField, lookupField, Json.asString, Json.asListOf, bind, Except.bind,
        decodeElems_marshal_toolCalls, List.isEmpty_iff, h1, h2, h3, h4])

/-- Witness for C8 at a concrete image-free message with every optional
field populated. -/
theorem marshal_flat_roundtrip_witness :
    msgFlat.images = [] ∧ Message.decodeJSON msgFlat.MarshalJSON = .ok msgFlat :=
  ⟨rfl, (marshal_flat_roundtrip msgFlat rfl).1⟩

/-- Counterexample to claim C9: decoding a chat-completion response
whose usage lacks prompt_tokens_details succeeds but leaves the details
pointer nil; the decoded usage carries no cached-tokens count at all, in
particular not a zero one. -/
theorem usage_missing_details_no_zero_count :
    (Client.ChatCompletion (fun _ => .response ⟨200, [some respNoDetails]⟩)
        { model := "m" }).1
      = .ok ⟨"m", [], "", false, "", ⟨19, 10, 29, none⟩⟩
    ∧ ¬ ((⟨19, 10, 29, none⟩ : Usage).promptTokensDetails.map
          PromptTokensDetails.cachedTokens = some 0)
    ∧ (⟨19, 10, 29, none⟩ : Usage) ≠ ⟨19, 10, 29, some ⟨0⟩⟩ :=
  ⟨rfl, by decide, by decide⟩

/-- Claim C9 (amended): decoding succeeds when the usage object lacks
prompt_tokens_details, leaving the field nil rather than defaulting a
count to zero; the zero default for cached_tokens applies only when
prompt_tokens_details is present without a cached_tokens key. -/
theorem usage_missing_details_decodes_none (pt ct tt : Int) :
    Usage.decodeJSON (.obj [("prompt_tokens", .num pt), ("completion_tokens", .num ct),
        ("total_tokens", .num tt)]) = .ok ⟨pt, ct, tt, none⟩
    ∧ Usage.decodeJSON (.obj [("prompt_tokens", .num pt), ("completion_tokens", .num ct),
        ("total_tokens", .num tt), ("prompt_tokens_details", .obj [])])
      = .ok ⟨pt, ct, tt, some ⟨0⟩⟩ :=
  ⟨rfl, rfl⟩

end Gollama
